import Mathlib

/-!
# Verification of the greenlight request admission and authorization core

This file gives a shallow embedding, in Lean 4, of the authorization,
rate-limiting and token-rotation logic of the greenlight HTTP API
(`cmd/api/middleware.go`, `cmd/api/routes.go`, `cmd/api/tokens.go`,
`internal/data/{permissions,resource_permissions,roles,tokens,trusted_clients}.go`),
together with theorems settling the specified properties of that core.

Database-backed model methods become pure functions over explicit store
states (lists of rows mirroring the SQL tables and queries); fallible
store calls are represented by `Except`-typed results so that error
propagation through the handlers can be stated; the SHA-256 hash used
for token and API-key lookup is an abstract parameter `sha`.
-/

namespace Greenlight

/-- The distinct HTTP reply helpers of `cmd/api/errors.go` that the
middleware under study can select among, plus `allow` for a request that
is passed to the next handler. -/
inductive Outcome where
  | allow
  | badRequest
  | serverError
  | notPermitted
  | rateLimitExceeded
  | invalidAuthenticationToken
  | expiredAuthenticationToken
  | authenticationRequired
  | inactiveAccount
  | failedValidation
  | success
  deriving DecidableEq, Repr

/-- A store-level failure of an underlying database call (pgx error that
is not "no rows"). -/
inductive StoreErr where
  | failure
  deriving DecidableEq, Repr

/-- `data.Permissions`: a slice of permission codes. -/
def Permissions := List String

instance : DecidableEq Permissions := List.hasDecEq

/-- `Permissions.Include` from `internal/data/permissions.go`:
`slices.Contains(p, code)`. -/
def Permissions.Include (p : Permissions) (code : String) : Bool :=
  p.contains code

/-- One row of the `resource_permissions` table:
(user_id, resource_type, resource_id, permission). -/
structure ResourcePermissionRow where
  userID : Int
  resourceType : String
  resourceID : Int
  permission : String
  deriving DecidableEq, Repr

/-- One row of the `users_permissions` join table consulted by
`PermissionsModel.GetAllForUser` (user_id paired with the joined
permission code). -/
structure UserPermissionRow where
  userID : Int
  code : String
  deriving DecidableEq, Repr

/-- One row of the `roles` table (the columns the permission-resolution
queries read). -/
structure RoleRow where
  id : Int
  parentID : Option Int
  deriving DecidableEq, Repr

/-- One row of the `roles_permissions` table joined with `permissions`
(role_id paired with the granted permission code). -/
structure RolePermissionRow where
  roleID : Int
  code : String
  deriving DecidableEq, Repr

/-- One row of the `users_roles` table. -/
structure UserRoleRow where
  userID : Int
  roleID : Int
  deriving DecidableEq, Repr

/-- The relational store state seen by the permission-resolution
queries. -/
structure PermissionDB where
  resourcePermissions : List ResourcePermissionRow
  usersPermissions : List UserPermissionRow
  roles : List RoleRow
  rolesPermissions : List RolePermissionRow
  usersRoles : List UserRoleRow
  deriving Repr

/-- `ResourcePermissionModel.HasPermission`
(`internal/data/resource_permissions.go`): `SELECT EXISTS(SELECT 1 FROM
resource_permissions WHERE user_id = $1 AND resource_type = $2 AND
resource_id = $3 AND permission = $4)`. -/
def ResourcePermissionModel.HasPermission (db : PermissionDB) (userID : Int)
    (resourceType : String) (resourceID : Int) (permission : String) : Bool :=
  db.resourcePermissions.any fun row =>
    row.userID == userID && row.resourceType == resourceType &&
      row.resourceID == resourceID && row.permission == permission

/-- `PermissionsModel.GetAllForUser` (`internal/data/permissions.go`):
`SELECT permissions.code FROM permissions INNER JOIN users_permissions ON
permissions.id = users_permissions.permission_id INNER JOIN users ON
users.id = users_permissions.user_id WHERE users.id = $1`.  The rows it
reads are the direct user-to-permission edges; no role table is
consulted. -/
def PermissionsModel.GetAllForUser (db : PermissionDB) (userID : Int) :
    Permissions :=
  (db.usersPermissions.filter fun row => row.userID == userID).map
    fun row => row.code

/-- Byte-wise (code-point) string comparison used to model the `ORDER BY
p.code` clause. -/
def strLeBool : List Char → List Char → Bool
  | [], _ => true
  | _ :: _, [] => false
  | a :: as, b :: bs =>
      if a.toNat < b.toNat then true
      else if b.toNat < a.toNat then false
      else strLeBool as bs

/-- Sorted insertion for `sortStrings`. -/
def orderedInsertStr (key : String) : List String → List String
  | [] => [key]
  | x :: xs =>
      if strLeBool key.data x.data then key :: x :: xs
      else x :: orderedInsertStr key xs

/-- Insertion sort modelling the `ORDER BY` of the permission query. -/
def sortStrings : List String → List String
  | [] => []
  | x :: xs => orderedInsertStr x (sortStrings xs)

/-- One step of the recursive CTE of `RoleModel.GetAllPermissions`
(`internal/data/roles.go`): add every `roles` row whose id is the
`parent_id` of a row already in the hierarchy (`UNION` keeps the row set
free of duplicates). -/
def roleHierarchyStep (roles : List RoleRow) (acc : List RoleRow) :
    List RoleRow :=
  roles.foldl
    (fun cur r =>
      if (acc.any fun m => m.parentID == some r.id) &&
          !(cur.any fun m => m == r)
      then cur ++ [r] else cur)
    acc

/-- Iterate the recursive CTE step. -/
def roleHierarchyIter (roles : List RoleRow) : ℕ → List RoleRow →
    List RoleRow
  | 0, acc => acc
  | n + 1, acc => roleHierarchyIter roles n (roleHierarchyStep roles acc)

/-- The CTE `role_hierarchy`: base case `SELECT id, parent_id FROM roles
WHERE id = $1`, then the recursive parent join, iterated to a fixpoint
(`roles.length + 1` rounds suffice: each productive round adds a row). -/
def roleHierarchy (roles : List RoleRow) (roleID : Int) : List RoleRow :=
  roleHierarchyIter roles (roles.length + 1)
    (roles.filter fun r => r.id == roleID)

/-- `RoleModel.GetAllPermissions` (`internal/data/roles.go`): the
recursive CTE walks from the given role up the `parent_id` chain and the
outer query returns `SELECT DISTINCT p.code ... ORDER BY p.code` over
the grants of every role in the hierarchy. -/
def RoleModel.GetAllPermissions (db : PermissionDB) (roleID : Int) :
    Permissions :=
  let hierarchy := roleHierarchy db.roles roleID
  let codes := (db.rolesPermissions.filter fun rp =>
      hierarchy.any fun hr => hr.id == rp.roleID).map fun rp => rp.code
  sortStrings codes.dedup

/-- `requireResourcePermission` (`cmd/api/middleware.go`): the decision
taken by the middleware for one request, as a function of the result of
`getResourceID(r)`, the result of
`app.models.ResourcePermissions.HasPermission`, and the result of
`app.models.Permissions.GetAllForUser` (which the code only consults when
the resource-scoped check returned `false`). -/
def requireResourcePermissionOutcome (permission : String)
    (ridRes : Except Unit Int)
    (hasPermRes : Except StoreErr Bool)
    (globalRes : Except StoreErr Permissions) : Outcome :=
  match ridRes with
  | .error _ => .badRequest
  | .ok _ =>
    match hasPermRes with
    | .error _ => .serverError
    | .ok hasPermission =>
      if hasPermission then .allow
      else
        match globalRes with
        | .error _ => .serverError
        | .ok permissions =>
          if permissions.Include permission then .allow
          else .notPermitted

/-- The resource-scoped row-existence check, as a proposition: the store
holds an exact-match row for (principal, resource type, resource id,
permission code). -/
def hasResourceRow (db : PermissionDB) (userID : Int) (resourceType : String)
    (resourceID : Int) (permission : String) : Prop :=
  (⟨userID, resourceType, resourceID, permission⟩ : ResourcePermissionRow)
    ∈ db.resourcePermissions

instance (db : PermissionDB) (u : Int) (rt : String) (rid : Int) (p : String) :
    Decidable (hasResourceRow db u rt rid p) :=
  List.instDecidableMemOfLawfulBEq _ _

/-- Membership in the resource-permission table coincides with the
`EXISTS` query of `ResourcePermissionModel.HasPermission`. -/
theorem hasPermission_iff_row (db : PermissionDB) (u : Int) (rt : String)
    (rid : Int) (p : String) :
    ResourcePermissionModel.HasPermission db u rt rid p = true ↔
      hasResourceRow db u rt rid p := by
  unfold ResourcePermissionModel.HasPermission hasResourceRow
  rw [List.any_eq_true]
  constructor
  · rintro ⟨row, hmem, hrow⟩
    simp only [Bool.and_eq_true, beq_iff_eq] at hrow
    obtain ⟨⟨⟨h1, h2⟩, h3⟩, h4⟩ := hrow
    have : row = ⟨u, rt, rid, p⟩ := by
      cases row; simp_all
    exact this ▸ hmem
  · intro hmem
    exact ⟨⟨u, rt, rid, p⟩, hmem, by simp⟩

/-- The `requireResourcePermission` middleware taken in isolation: its
reply is allow iff the principal holds an exact-match resource-scoped
permission row or holds the same code globally, and not-permitted
exactly when both checks fail.  The mounted route chain does not
preserve this request-level: see the route-chain evaluation in the
middleware section below. -/
theorem resource_permission_or_global_authorizes (db : PermissionDB)
    (u : Int) (rt : String) (rid : Int) (p : String) (ridVal : Int) :
    (requireResourcePermissionOutcome p (.ok ridVal)
        (.ok (ResourcePermissionModel.HasPermission db u rt rid p))
        (.ok (PermissionsModel.GetAllForUser db u)) = .allow ↔
      (hasResourceRow db u rt rid p ∨
        (PermissionsModel.GetAllForUser db u).Include p = true)) ∧
    (requireResourcePermissionOutcome p (.ok ridVal)
        (.ok (ResourcePermissionModel.HasPermission db u rt rid p))
        (.ok (PermissionsModel.GetAllForUser db u)) = .notPermitted ↔
      (¬ hasResourceRow db u rt rid p ∧
        ¬ (PermissionsModel.GetAllForUser db u).Include p = true)) := by
  unfold requireResourcePermissionOutcome
  rw [← hasPermission_iff_row]
  rcases h1 : ResourcePermissionModel.HasPermission db u rt rid p with _ | _ <;>
    rcases h2 : (PermissionsModel.GetAllForUser db u).Include p with _ | _ <;>
      simp [h1, h2]

/-- Closed instance of the middleware-level biconditional at a one-row
store. -/
theorem resource_permission_or_global_authorizes_witness :
    requireResourcePermissionOutcome "movies:write" (.ok 42)
        (.ok (ResourcePermissionModel.HasPermission
          ⟨[⟨7, "movie", 42, "movies:write"⟩], [], [], [], []⟩
          7 "movie" 42 "movies:write"))
        (.ok (PermissionsModel.GetAllForUser
          ⟨[⟨7, "movie", 42, "movies:write"⟩], [], [], [], []⟩ 7)) = .allow := by
  have h := resource_permission_or_global_authorizes
    ⟨[⟨7, "movie", 42, "movies:write"⟩], [], [], [], []⟩
    7 "movie" 42 "movies:write" 42
  exact h.1.mpr (by left; decide)

/-! ## Token-bucket rate limiter (`golang.org/x/time/rate` as used by `rateLimit`) -/

/-- The token-bucket limiter state of `rate.Limiter`: a refill rate
(tokens per second), a bucket capacity `burst`, and the current token
count. -/
structure Limiter where
  limit : ℚ
  burst : ℕ
  tokens : ℚ
  deriving DecidableEq, Repr

/-- `rate.NewLimiter(r, b)`: a fresh limiter starts with a full bucket
(its first advance refills up to capacity). -/
def rateNewLimiter (r : ℚ) (b : ℕ) : Limiter :=
  ⟨r, b, (b : ℚ)⟩

/-- Continuous refill: elapsed time adds `elapsed * limit` tokens, capped
at the burst capacity. -/
def Limiter.advance (l : Limiter) (elapsed : ℚ) : Limiter :=
  { l with tokens := min (l.tokens + elapsed * l.limit) (l.burst : ℚ) }

/-- `Limiter.Allow()`: admit iff at least one token is available, and
consume it on admission. -/
def Limiter.allow (l : Limiter) : Bool × Limiter :=
  if 1 ≤ l.tokens then (true, { l with tokens := l.tokens - 1 })
  else (false, l)

/-- The results of `n` consecutive `Allow()` calls with no elapsed time
in between. -/
def Limiter.allowSeq (l : Limiter) : ℕ → List Bool
  | 0 => []
  | n + 1 =>
      let (ok, next) := l.allow
      ok :: next.allowSeq n

/-- Unfolding lemma for one `Allow` call in a sequence. -/
theorem Limiter.allowSeq_succ (l : Limiter) (n : ℕ) :
    l.allowSeq (n + 1) = l.allow.1 :: l.allow.2.allowSeq n := by
  rcases h : l.allow with ⟨ok, next⟩
  simp [Limiter.allowSeq, h]

/-- A limiter holding an integral token count `k` admits its next `k`
consecutive requests and denies the one after. -/
theorem allowSeq_of_tokens (k : ℕ) :
    ∀ l : Limiter, l.tokens = (k : ℚ) →
      l.allowSeq (k + 1) = List.replicate k true ++ [false] := by
  induction k with
  | zero =>
      intro l hl
      have h0 : ¬ (1 : ℚ) ≤ l.tokens := by rw [hl]; norm_num
      simp [Limiter.allowSeq, Limiter.allow, h0]
  | succ n ih =>
      intro l hl
      have h1 : (1 : ℚ) ≤ l.tokens := by
        rw [hl]; exact_mod_cast Nat.succ_le_succ (Nat.zero_le n)
      have step : l.allow = (true, { l with tokens := l.tokens - 1 }) := by
        simp [Limiter.allow, h1]
      have htok : ({ l with tokens := l.tokens - 1 } : Limiter).tokens = (n : ℚ) := by
        show l.tokens - 1 = (n : ℚ)
        rw [hl]
        push_cast
        ring
      rw [Limiter.allowSeq_succ, step]
      simp only [List.replicate_succ, List.cons_append]
      rw [ih _ htok]

/-- C3: for every configuration (rate, burst) with burst at least the
rate, a freshly created limiter admits exactly `burst` consecutive
no-elapsed-time requests and denies the next; in general an `Allow` call
admits iff at least one token is available, and an admitted call
consumes exactly one token. -/
theorem limiter_admits_exactly_burst (r : ℚ) (b : ℕ) (hb : r ≤ (b : ℚ)) :
    (rateNewLimiter r b).allowSeq (b + 1) =
        List.replicate b true ++ [false] ∧
    (∀ l : Limiter,
      (l.allow.1 = true ↔ 1 ≤ l.tokens) ∧
      (l.allow.1 = true → l.allow.2.tokens = l.tokens - 1)) := by
  constructor
  · exact allowSeq_of_tokens b (rateNewLimiter r b) rfl
  · intro l
    constructor
    · by_cases h : (1 : ℚ) ≤ l.tokens <;> simp [Limiter.allow, h]
    · intro h
      by_cases h1 : (1 : ℚ) ≤ l.tokens
      · simp [Limiter.allow, h1]
      · simp [Limiter.allow, h1] at h

/-- Closed witness for C3 at the default configuration
(`limiter-rps` 2, `limiter-burst` 4 from `cmd/api/main.go`). -/
theorem limiter_admits_exactly_burst_witness :
    (rateNewLimiter 2 4).allowSeq 5 =
      List.replicate 4 true ++ [false] :=
  (limiter_admits_exactly_burst 2 4 (by norm_num)).1

/-! ## Token store and refresh rotation (`internal/data/tokens.go`,
`cmd/api/tokens.go`) -/

/-- Token scopes from `internal/data/tokens.go`. -/
def ScopeActivation : String := "activation"

/-- The `authentication` token scope. -/
def ScopeAuthentication : String := "authentication"

/-- The `refresh` token scope. -/
def ScopeRefresh : String := "refresh"

/-- One row of the `tokens` table.  The stored hash is the SHA-256 of
the plaintext, represented abstractly through the `sha` parameter of the
operations below. -/
structure TokenRow where
  hash : String
  userID : Int
  expiry : ℚ
  scope : String
  isRefresh : Bool
  deriving DecidableEq, Repr

/-- The `tokens` table. -/
def TokenDB := List TokenRow

instance : Membership TokenRow TokenDB := List.instMembership

/-- The error values of `internal/data/tokens.go` plus a store
failure. -/
inductive TokenErr where
  | invalidToken
  | expiredToken
  | failure
  deriving DecidableEq, Repr

/-- `ValidateTokenPlaintext` (`internal/data/tokens.go`): the plaintext
must be non-empty and exactly 26 bytes long.  (No character-set check is
performed.) -/
def ValidateTokenPlaintext (t : String) : Bool :=
  !(t == "") && (t.utf8ByteSize == 26)

/-- `TokenModel.Insert`: `INSERT INTO tokens (hash, user_id, expiry,
scope, is_refresh) VALUES (...)`. -/
def TokenModel.Insert (db : TokenDB) (t : TokenRow) : TokenDB :=
  List.append db [t]

/-- `TokenModel.DeleteAllForUser`: `DELETE FROM tokens WHERE scope = $1
AND user_id = $2`. -/
def TokenModel.DeleteAllForUser (db : TokenDB) (scope : String)
    (userID : Int) : TokenDB :=
  List.filter (fun r => !(r.scope == scope && r.userID == userID)) db

/-- The row filter of the `GetRefreshToken` query: `WHERE hash = $1 AND
scope = $2 AND is_refresh = true` with `$2 = ScopeRefresh`. -/
def refreshRowMatches (sha : String → String) (pt : String)
    (r : TokenRow) : Bool :=
  r.hash == sha pt && r.scope == ScopeRefresh && r.isRefresh

/-- `TokenModel.GetRefreshToken`: look up the row by hash, refresh scope
and refresh flag; no row gives `ErrInvalidToken`, a matched row past its
expiry gives `ErrExpiredToken`. -/
def TokenModel.GetRefreshToken (sha : String → String) (db : TokenDB)
    (now : ℚ) (pt : String) : Except TokenErr TokenRow :=
  match List.find? (refreshRowMatches sha pt) db with
  | none => .error .invalidToken
  | some r => if now > r.expiry then .error .expiredToken else .ok r

/-- `TokenModel.NewPair`: generate an access token (authentication
scope) and a refresh token (refresh scope, `IsRefresh = true`) with
independent TTLs and insert both rows.  The two random plaintexts are
passed in as `accessPt` and `refreshPt`. -/
def TokenModel.NewPair (sha : String → String) (db : TokenDB)
    (userID : Int) (now accessTTL refreshTTL : ℚ)
    (accessPt refreshPt : String) : TokenDB × TokenRow × TokenRow :=
  let accessTok : TokenRow :=
    ⟨sha accessPt, userID, now + accessTTL, ScopeAuthentication, false⟩
  let refreshTok : TokenRow :=
    ⟨sha refreshPt, userID, now + refreshTTL, ScopeRefresh, true⟩
  let db1 := TokenModel.Insert db accessTok
  let db2 := TokenModel.Insert db1 refreshTok
  (db2, accessTok, refreshTok)

/-- `refreshTokenHandler` (`cmd/api/tokens.go`): validate the presented
plaintext, look up the refresh token, issue a new pair (15 minutes / 24
hours, in seconds) and then delete all refresh-scoped tokens of that
principal.  Returns the reply outcome and the final store state. -/
def refreshTokenHandler (sha : String → String) (db : TokenDB) (now : ℚ)
    (inputPt accessPt refreshPt : String) : Outcome × TokenDB :=
  if !(ValidateTokenPlaintext inputPt) then (.failedValidation, db)
  else
    match TokenModel.GetRefreshToken sha db now inputPt with
    | .error .invalidToken => (.invalidAuthenticationToken, db)
    | .error .expiredToken => (.expiredAuthenticationToken, db)
    | .error .failure => (.serverError, db)
    | .ok tok =>
      let res := TokenModel.NewPair sha db tok.userID now 900 86400
        accessPt refreshPt
      let db2 := TokenModel.DeleteAllForUser res.1 ScopeRefresh tok.userID
      (.success, db2)

/-- The refresh handler maps a failed (no-match) refresh lookup to the
invalid-authentication-token response. -/
theorem refreshTokenHandler_invalid (sha : String → String) (db : TokenDB)
    (now : ℚ) (pt a r : String)
    (hv : ValidateTokenPlaintext pt = true)
    (hg : TokenModel.GetRefreshToken sha db now pt = .error .invalidToken) :
    (refreshTokenHandler sha db now pt a r).1 = .invalidAuthenticationToken := by
  unfold refreshTokenHandler
  rw [hv, hg]
  rfl

/-- A successful refresh lookup pins down the found row: it is in the
store and satisfies the query filter. -/
theorem getRefreshToken_ok (sha : String → String) (db : TokenDB)
    (now : ℚ) (pt : String) (tok : TokenRow)
    (h : TokenModel.GetRefreshToken sha db now pt = .ok tok) :
    List.find? (refreshRowMatches sha pt) db = some tok := by
  unfold TokenModel.GetRefreshToken at h
  rcases hf : List.find? (refreshRowMatches sha pt) db with _ | r <;> rw [hf] at h
  · exact absurd h (by simp)
  · dsimp only at h
    by_cases he : now > r.expiry
    · rw [if_pos he] at h; exact absurd h (by simp)
    · rw [if_neg he] at h
      simp only [Except.ok.injEq] at h
      rw [h]

/-- C4: if the store keys tokens by distinct hashes (the `hash` column
is the primary key), then after one successful rotation the old refresh
plaintext no longer matches any row and re-presenting it fails with
`ErrInvalidToken`. -/
theorem rotate_then_old_refresh_plaintext_invalid
    (sha : String → String) (db : TokenDB) (now later : ℚ)
    (oldPt aPt rPt : String) (tok : TokenRow)
    (hnodup : (db.map TokenRow.hash).Nodup)
    (hvalid : ValidateTokenPlaintext oldPt = true)
    (hget : TokenModel.GetRefreshToken sha db now oldPt = .ok tok) :
    (refreshTokenHandler sha db now oldPt aPt rPt).1 = .success ∧
    TokenModel.GetRefreshToken sha
        (refreshTokenHandler sha db now oldPt aPt rPt).2 later oldPt =
      .error .invalidToken := by
  have hfind := getRefreshToken_ok sha db now oldPt tok hget
  have hmem : tok ∈ db := List.mem_of_find?_eq_some hfind
  have hpred : refreshRowMatches sha oldPt tok = true :=
    List.find?_some hfind
  have hrun : refreshTokenHandler sha db now oldPt aPt rPt =
      (.success, TokenModel.DeleteAllForUser
        (TokenModel.NewPair sha db tok.userID now 900 86400 aPt rPt).1
        ScopeRefresh tok.userID) := by
    unfold refreshTokenHandler
    rw [hvalid, hget]
    simp
  refine ⟨by rw [hrun], ?_⟩
  rw [hrun]
  unfold TokenModel.GetRefreshToken
  have hnone : List.find? (refreshRowMatches sha oldPt)
      (TokenModel.DeleteAllForUser
        (TokenModel.NewPair sha db tok.userID now 900 86400 aPt rPt).1
        ScopeRefresh tok.userID) = none := by
    rw [List.find?_eq_none]
    intro r hr
    unfold TokenModel.DeleteAllForUser at hr
    rw [List.mem_filter] at hr
    obtain ⟨hrmem, hkeep⟩ := hr
    unfold TokenModel.NewPair TokenModel.Insert at hrmem
    simp only [List.append_eq, List.mem_append, List.mem_singleton] at hrmem
    intro hpr
    have hscope : r.scope = ScopeRefresh := by
      have := hpr
      unfold refreshRowMatches at this
      simp only [Bool.and_eq_true, beq_iff_eq] at this
      exact this.1.2
    rcases hrmem with (hin | haccess) | hrefresh
    · -- a surviving row of the original store with the old hash must be
      -- the matched row itself, which the delete removed
      have hhash : r.hash = tok.hash := by
        have h1 : r.hash = sha oldPt := by
          have := hpr
          unfold refreshRowMatches at this
          simp only [Bool.and_eq_true, beq_iff_eq] at this
          exact this.1.1
        have h2 : tok.hash = sha oldPt := by
          have := hpred
          unfold refreshRowMatches at this
          simp only [Bool.and_eq_true, beq_iff_eq] at this
          exact this.1.1
        rw [h1, h2]
      have hr_eq : r = tok :=
        List.inj_on_of_nodup_map hnodup hin hmem hhash
      have htokscope : tok.scope = ScopeRefresh := by
        have := hpred
        unfold refreshRowMatches at this
        simp only [Bool.and_eq_true, beq_iff_eq] at this
        exact this.1.2
      rw [hr_eq] at hkeep
      simp [htokscope] at hkeep
    · -- the new access token has authentication scope
      rw [haccess] at hscope
      simp [ScopeAuthentication, ScopeRefresh] at hscope
    · -- the new refresh token was deleted again
      rw [hrefresh] at hkeep
      simp [ScopeRefresh] at hkeep
  rw [hnone]

/-- Closed witness for the C4 theorem on a one-row store. -/
theorem rotate_then_old_refresh_plaintext_invalid_witness :
    (refreshTokenHandler (fun s => s)
        [⟨"AAAAAAAAAAAAAAAAAAAAAAAAAA", 7, 1000, ScopeRefresh, true⟩]
        0 "AAAAAAAAAAAAAAAAAAAAAAAAAA"
        "BBBBBBBBBBBBBBBBBBBBBBBBBB" "CCCCCCCCCCCCCCCCCCCCCCCCCC").1 =
      .success ∧
    TokenModel.GetRefreshToken (fun s => s)
        (refreshTokenHandler (fun s => s)
          [⟨"AAAAAAAAAAAAAAAAAAAAAAAAAA", 7, 1000, ScopeRefresh, true⟩]
          0 "AAAAAAAAAAAAAAAAAAAAAAAAAA"
          "BBBBBBBBBBBBBBBBBBBBBBBBBB" "CCCCCCCCCCCCCCCCCCCCCCCCCC").2
        5 "AAAAAAAAAAAAAAAAAAAAAAAAAA" = .error .invalidToken :=
  rotate_then_old_refresh_plaintext_invalid (fun s => s)
    [⟨"AAAAAAAAAAAAAAAAAAAAAAAAAA", 7, 1000, ScopeRefresh, true⟩]
    0 5 "AAAAAAAAAAAAAAAAAAAAAAAAAA" "BBBBBBBBBBBBBBBBBBBBBBBBBB"
    "CCCCCCCCCCCCCCCCCCCCCCCCCC"
    ⟨"AAAAAAAAAAAAAAAAAAAAAAAAAA", 7, 1000, ScopeRefresh, true⟩
    (by decide) (by decide) (by rfl)

/-- C5: the refresh token inserted by a successful rotation is itself
removed again by the delete-all step that runs before the response is
returned, so the newly returned refresh plaintext is absent from the
final store and a subsequent rotation presenting it fails with the
invalid-token response.  `hfresh` says the freshly generated plaintext
hashes to a value not already in the store. -/
theorem rotation_deletes_new_refresh_token
    (sha : String → String) (db : TokenDB) (now later : ℚ)
    (oldPt aPt rPt aPt2 rPt2 : String) (tok : TokenRow)
    (hvalid : ValidateTokenPlaintext oldPt = true)
    (hvalidNew : ValidateTokenPlaintext rPt = true)
    (hfresh : ∀ r ∈ db, r.hash ≠ sha rPt)
    (hget : TokenModel.GetRefreshToken sha db now oldPt = .ok tok) :
    (⟨sha rPt, tok.userID, now + 86400, ScopeRefresh, true⟩ : TokenRow) ∉
        (refreshTokenHandler sha db now oldPt aPt rPt).2 ∧
    TokenModel.GetRefreshToken sha
        (refreshTokenHandler sha db now oldPt aPt rPt).2 later rPt =
      .error .invalidToken ∧
    (refreshTokenHandler sha
        (refreshTokenHandler sha db now oldPt aPt rPt).2 later rPt
        aPt2 rPt2).1 = .invalidAuthenticationToken := by
  have hrun : refreshTokenHandler sha db now oldPt aPt rPt =
      (.success, TokenModel.DeleteAllForUser
        (TokenModel.NewPair sha db tok.userID now 900 86400 aPt rPt).1
        ScopeRefresh tok.userID) := by
    unfold refreshTokenHandler
    rw [hvalid, hget]
    simp
  have hnone : List.find? (refreshRowMatches sha rPt)
      (TokenModel.DeleteAllForUser
        (TokenModel.NewPair sha db tok.userID now 900 86400 aPt rPt).1
        ScopeRefresh tok.userID) = none := by
    rw [List.find?_eq_none]
    intro r hr
    unfold TokenModel.DeleteAllForUser at hr
    rw [List.mem_filter] at hr
    obtain ⟨hrmem, hkeep⟩ := hr
    unfold TokenModel.NewPair TokenModel.Insert at hrmem
    simp only [List.append_eq, List.mem_append, List.mem_singleton] at hrmem
    intro hpr
    unfold refreshRowMatches at hpr
    simp only [Bool.and_eq_true, beq_iff_eq] at hpr
    rcases hrmem with (hin | haccess) | hrefresh
    · exact hfresh r hin hpr.1.1
    · rw [haccess] at hpr
      have := hpr.1.2
      simp [ScopeAuthentication, ScopeRefresh] at this
    · rw [hrefresh] at hkeep
      simp [ScopeRefresh] at hkeep
  have hlookup : TokenModel.GetRefreshToken sha
      (refreshTokenHandler sha db now oldPt aPt rPt).2 later rPt =
      .error .invalidToken := by
    rw [hrun]
    unfold TokenModel.GetRefreshToken
    rw [hnone]
  refine ⟨?_, hlookup, ?_⟩
  · rw [hrun]
    intro hmem2
    unfold TokenModel.DeleteAllForUser at hmem2
    rw [List.mem_filter] at hmem2
    simp [ScopeRefresh] at hmem2
  · exact refreshTokenHandler_invalid sha _ later rPt aPt2 rPt2 hvalidNew hlookup

/-- Closed witness for the C5 theorem on a one-row store. -/
theorem rotation_deletes_new_refresh_token_witness :
    (⟨"CCCCCCCCCCCCCCCCCCCCCCCCCC", 7, 86400, ScopeRefresh, true⟩ : TokenRow) ∉
        (refreshTokenHandler (fun s => s)
          [⟨"AAAAAAAAAAAAAAAAAAAAAAAAAA", 7, 1000, ScopeRefresh, true⟩]
          0 "AAAAAAAAAAAAAAAAAAAAAAAAAA"
          "BBBBBBBBBBBBBBBBBBBBBBBBBB" "CCCCCCCCCCCCCCCCCCCCCCCCCC").2 ∧
    TokenModel.GetRefreshToken (fun s => s)
        (refreshTokenHandler (fun s => s)
          [⟨"AAAAAAAAAAAAAAAAAAAAAAAAAA", 7, 1000, ScopeRefresh, true⟩]
          0 "AAAAAAAAAAAAAAAAAAAAAAAAAA"
          "BBBBBBBBBBBBBBBBBBBBBBBBBB" "CCCCCCCCCCCCCCCCCCCCCCCCCC").2
        5 "CCCCCCCCCCCCCCCCCCCCCCCCCC" = .error .invalidToken ∧
    (refreshTokenHandler (fun s => s)
        (refreshTokenHandler (fun s => s)
          [⟨"AAAAAAAAAAAAAAAAAAAAAAAAAA", 7, 1000, ScopeRefresh, true⟩]
          0 "AAAAAAAAAAAAAAAAAAAAAAAAAA"
          "BBBBBBBBBBBBBBBBBBBBBBBBBB" "CCCCCCCCCCCCCCCCCCCCCCCCCC").2
        5 "CCCCCCCCCCCCCCCCCCCCCCCCCC"
        "DDDDDDDDDDDDDDDDDDDDDDDDDD" "EEEEEEEEEEEEEEEEEEEEEEEEEE").1 =
      .invalidAuthenticationToken := by
  have h := rotation_deletes_new_refresh_token (fun s => s)
    [⟨"AAAAAAAAAAAAAAAAAAAAAAAAAA", 7, 1000, ScopeRefresh, true⟩]
    0 5 "AAAAAAAAAAAAAAAAAAAAAAAAAA" "BBBBBBBBBBBBBBBBBBBBBBBBBB"
    "CCCCCCCCCCCCCCCCCCCCCCCCCC"
    "DDDDDDDDDDDDDDDDDDDDDDDDDD" "EEEEEEEEEEEEEEEEEEEEEEEEEE"
    ⟨"AAAAAAAAAAAAAAAAAAAAAAAAAA", 7, 1000, ScopeRefresh, true⟩
    (by decide) (by decide) (by decide) (by rfl)
  simpa using h

/-! ## Middleware (`cmd/api/middleware.go`, `cmd/api/routes.go`) -/

/-- `data.User`: the fields the middleware reads.  `anonymous` models
`IsAnonymous()`, identity with the `AnonymousUser` sentinel. -/
structure User where
  id : Int
  activated : Bool
  anonymous : Bool
  deriving DecidableEq, Repr

/-- `data.AnonymousUser`: the zero-valued sentinel user. -/
def AnonymousUser : User := ⟨0, false, true⟩

/-- The header and address data of one inbound request that the
middleware under study reads.  A header that is not present is the empty
string, as with `http.Header.Get`. -/
structure Request where
  authorizationHeader : String
  apiKeyHeader : String
  realIPHeader : String
  remoteAddr : String
  deriving DecidableEq, Repr

/-- Failure modes of the token-to-user store lookup
(`UserModel.GetForToken`). -/
inductive AuthErr where
  | recordNotFound
  | deadlineExceeded
  | failure
  deriving DecidableEq, Repr

/-- `authenticate` (`cmd/api/middleware.go`): no Authorization header
falls back to the anonymous user; a header without the `Bearer ` prefix
or with an invalid token shape is rejected; otherwise the store lookup
result decides (no row gives the invalid-token response, a deadline or
other store error gives the server-error response). -/
def authenticateStep (req : Request) (lookupRes : Except AuthErr User) :
    Except Outcome User :=
  if req.authorizationHeader == "" then .ok AnonymousUser
  else if !(req.authorizationHeader.take 7 == "Bearer ") then
    .error .invalidAuthenticationToken
  else
    let token := req.authorizationHeader.drop 7
    if !(ValidateTokenPlaintext token) then
      .error .invalidAuthenticationToken
    else
      match lookupRes with
      | .error .recordNotFound => .error .invalidAuthenticationToken
      | .error .deadlineExceeded => .error .serverError
      | .error .failure => .error .serverError
      | .ok user => .ok user

/-- One entry of the per-principal permission cache of
`requirePermission`. -/
structure PermissionCacheEntry where
  permissions : Permissions
  expiry : ℚ

/-- `cacheDuration`: 5 minutes, in seconds. -/
def cacheDuration : ℚ := 300

/-- The fetch-and-cache path of `requirePermission`: on a store error
reply with the server-error response; otherwise cache the fetched set
and decide by membership of the required code. -/
def requirePermissionFetch (code : String) (now : ℚ)
    (fetch : Except StoreErr Permissions) :
    Outcome × Option PermissionCacheEntry :=
  match fetch with
  | .error _ => (.serverError, none)
  | .ok permissions =>
      let entry : PermissionCacheEntry := ⟨permissions, now + cacheDuration⟩
      if !(permissions.Include code) then (.notPermitted, some entry)
      else (.allow, some entry)

/-- The cache-first body of `requirePermission`: a valid cache entry
decides directly; an expired entry is deleted and the store is
consulted. -/
def requirePermissionCore (code : String) (now : ℚ)
    (cached : Option PermissionCacheEntry)
    (fetch : Except StoreErr Permissions) :
    Outcome × Option PermissionCacheEntry :=
  match cached with
  | some pc =>
      if now < pc.expiry then
        if !(pc.permissions.Include code) then (.notPermitted, some pc)
        else (.allow, some pc)
      else requirePermissionFetch code now fetch
  | none => requirePermissionFetch code now fetch

/-- `requirePermission` composed with its `requireActivatedUser` and
`requireAuthenticatedUser` wrappers: anonymous users are rejected first,
inactive users next, then the permission check runs.  `cached` is the
cache slot for the resolved user id; the second component is that slot
after the request. -/
def requirePermissionOutcome (code : String) (now : ℚ)
    (cached : Option PermissionCacheEntry)
    (fetch : Except StoreErr Permissions) (user : User) :
    Outcome × Option PermissionCacheEntry :=
  if user.anonymous then (.authenticationRequired, cached)
  else if !user.activated then (.inactiveAccount, cached)
  else requirePermissionCore code now cached fetch

/-- One row of the `trusted_clients` table as read by the rate
limiter. -/
structure TrustedClientRow where
  id : Int
  apiKeyHash : String
  rateLimitRPS : ℚ
  rateLimitBurst : ℕ
  enabled : Bool
  deriving DecidableEq, Repr

/-- Store lookup errors (`ErrRecordNotFound` or an underlying
failure). -/
inductive DBErr where
  | recordNotFound
  | failure
  deriving DecidableEq, Repr

/-- `TrustedClientModel.GetByAPIKey`
(`internal/data/trusted_clients.go`): hash the presented key and select
the row whose `api_key_hash` matches. -/
def TrustedClientModel.GetByAPIKey (sha : String → String)
    (rows : List TrustedClientRow) (apiKey : String) :
    Except DBErr TrustedClientRow :=
  match rows.find? (fun c => c.apiKeyHash == sha apiKey) with
  | some c => .ok c
  | none => .error .recordNotFound

/-- One entry of the rate-limiter registry: a token-bucket limiter and
the last-seen timestamp used by the eviction sweep. -/
structure ClientEntry where
  limiter : Limiter
  lastSeen : ℚ
  deriving DecidableEq, Repr

/-- The `clients` map of `rateLimit`, keyed by API key or network
address. -/
def ClientsMap := List (String × ClientEntry)

/-- Go map read. -/
def ClientsMap.lookup : ClientsMap → String → Option ClientEntry
  | [], _ => none
  | e :: rest, k => if e.1 == k then some e.2 else ClientsMap.lookup rest k

/-- Go map write: replace the entry at the key or add it. -/
def ClientsMap.insert : ClientsMap → String → ClientEntry → ClientsMap
  | [], k, v => [(k, v)]
  | e :: rest, k, v =>
      if e.1 == k then (k, v) :: rest
      else e :: ClientsMap.insert rest k v

/-- The rate limiter configuration (`limiter-rps`, `limiter-burst`,
`limiter-cleanup`, `limiter-enabled` flags of `cmd/api/main.go`). -/
structure LimiterConfig where
  enabled : Bool
  rps : ℚ
  burst : ℕ
  cleanup : ℚ
  deriving Repr

/-- The admission key of the default (non-trusted) path of `rateLimit`:
`ip := r.RemoteAddr; if realIP := r.Header.Get("X-Real-IP"); realIP != ""
then ip = realIP`. -/
def ipKeyOf (req : Request) : String :=
  if !(req.realIPHeader == "") then req.realIPHeader else req.remoteAddr

/-- `rateLimit` (`cmd/api/middleware.go`): when disabled, pass without
touching the registry; a request presenting an `X-API-Key` that resolves
to an enabled trusted client uses a bucket keyed by the key and
parameterized by that client row; anything else uses a bucket keyed by
the caller address and parameterized by the global configuration.  The
result is the pass/deny decision and the updated registry. -/
def rateLimitStep (cfg : LimiterConfig) (sha : String → String)
    (trusted : List TrustedClientRow) (clients : ClientsMap) (now : ℚ)
    (req : Request) : Except Outcome Unit × ClientsMap :=
  if !cfg.enabled then (.ok (), clients)
  else
    let apiKey := req.apiKeyHeader
    let trustedHit : Option TrustedClientRow :=
      if !(apiKey == "") then
        match TrustedClientModel.GetByAPIKey sha trusted apiKey with
        | .ok c => if c.enabled then some c else none
        | .error _ => none
      else none
    match trustedHit with
    | some c =>
        let entry :=
          match clients.lookup apiKey with
          | some e => e
          | none => ⟨rateNewLimiter c.rateLimitRPS c.rateLimitBurst, 0⟩
        let entry2 := { entry with lastSeen := now }
        let res := entry2.limiter.allow
        let clients2 := clients.insert apiKey { entry2 with limiter := res.2 }
        if !res.1 then (.error .rateLimitExceeded, clients2)
        else (.ok (), clients2)
    | none =>
        let ip := ipKeyOf req
        let entry :=
          match clients.lookup ip with
          | some e => e
          | none => ⟨rateNewLimiter cfg.rps cfg.burst, 0⟩
        let entry2 := { entry with lastSeen := now }
        let res := entry2.limiter.allow
        let clients2 := clients.insert ip { entry2 with limiter := res.2 }
        if !res.1 then (.error .rateLimitExceeded, clients2)
        else (.ok (), clients2)

/-- The per-request decision sequence of `routes()` for an operation
guarded by `requirePermission`: `rateLimit` runs first, then
`authenticate`, then the permission check; a failing step replies
immediately and later steps never run. -/
def processRequest (cfg : LimiterConfig) (sha : String → String)
    (trusted : List TrustedClientRow) (clients : ClientsMap) (now : ℚ)
    (req : Request) (lookupRes : Except AuthErr User) (code : String)
    (cached : Option PermissionCacheEntry)
    (fetch : Except StoreErr Permissions) :
    Outcome × ClientsMap × Option PermissionCacheEntry :=
  match rateLimitStep cfg sha trusted clients now req with
  | (.error o, clients2) => (o, clients2, cached)
  | (.ok _, clients2) =>
      match authenticateStep req lookupRes with
      | .error o => (o, clients2, cached)
      | .ok user =>
          let res := requirePermissionOutcome code now cached fetch user
          (res.1, clients2, res.2)

/-- C6: a store error during permission resolution — the global fetch of
`requirePermission` (on a cache miss or an expired entry), or either
lookup of `requireResourcePermission` — yields the server-error reply,
which is distinct from the not-permitted policy denial; the error is
never treated as an empty permission set. -/
theorem store_error_never_not_permitted (code p : String) (now : ℚ)
    (user : User) (cached : Option PermissionCacheEntry)
    (e1 e2 e3 : StoreErr) (rid : Int) (g : Except StoreErr Permissions)
    (hanon : user.anonymous = false) (hact : user.activated = true)
    (hcache : ∀ pc, cached = some pc → pc.expiry ≤ now) :
    (requirePermissionOutcome code now cached (.error e1) user).1 =
        .serverError ∧
    requireResourcePermissionOutcome p (.ok rid) (.error e2) g =
        .serverError ∧
    requireResourcePermissionOutcome p (.ok rid) (.ok false) (.error e3) =
        .serverError ∧
    (Outcome.serverError ≠ Outcome.notPermitted) := by
  refine ⟨?_, ?_, ?_, by simp⟩
  · unfold requirePermissionOutcome requirePermissionCore
      requirePermissionFetch
    rw [hanon, hact]
    rcases hc : cached with _ | pc
    · simp
    · have hexp : ¬ now < pc.expiry := not_lt.mpr (hcache pc hc)
      simp [hexp]
  · unfold requireResourcePermissionOutcome
    rfl
  · unfold requireResourcePermissionOutcome
    simp

/-- Closed witness for the C6 theorem. -/
theorem store_error_never_not_permitted_witness :
    (requirePermissionOutcome "movies:write" 0 none
        (.error .failure) ⟨7, true, false⟩).1 = .serverError ∧
    requireResourcePermissionOutcome "movies:write" (.ok 42)
        (.error .failure) (.ok []) = .serverError ∧
    requireResourcePermissionOutcome "movies:write" (.ok 42) (.ok false)
        (.error .failure) = .serverError ∧
    (Outcome.serverError ≠ Outcome.notPermitted) :=
  store_error_never_not_permitted "movies:write" "movies:write" 0
    ⟨7, true, false⟩ none .failure .failure .failure 42 (.ok [])
    rfl rfl (by intro pc hpc; cases hpc)

/-- The role scenario of the specification: role `user` (id 1, no
parent) holds `movies:read`, role `manager` (id 2, parent 1) holds
`movies:write`, and principal 7 is assigned only `manager`.  No direct
user-permission edge exists. -/
def roleScenarioDB : PermissionDB :=
  ⟨[], [], [⟨1, none⟩, ⟨2, some 1⟩],
    [⟨1, "movies:read"⟩, ⟨2, "movies:write"⟩], [⟨7, 2⟩]⟩

/-- C2 (divergence witness): the permission set the authorization
middleware actually uses comes from `PermissionsModel.GetAllForUser`,
which reads only direct user-permission edges and ignores role
assignments: in the scenario it is empty and the guarded request is
denied, even though the role-hierarchy resolver
`RoleModel.GetAllPermissions` (used only by the display endpoint
`listRolePermissionsHandler`) does resolve the assigned role `manager`
to the claimed set. -/
theorem effective_permissions_ignore_assigned_roles :
    PermissionsModel.GetAllForUser roleScenarioDB 7 = [] ∧
    RoleModel.GetAllPermissions roleScenarioDB 2 =
        ["movies:read", "movies:write"] ∧
    (requirePermissionOutcome "movies:read" 0 none
        (.ok (PermissionsModel.GetAllForUser roleScenarioDB 7))
        ⟨7, true, false⟩).1 = .notPermitted ∧
    (requirePermissionOutcome "movies:write" 0 none
        (.ok (PermissionsModel.GetAllForUser roleScenarioDB 7))
        ⟨7, true, false⟩).1 = .notPermitted := by
  refine ⟨rfl, by decide, rfl, rfl⟩

/-- Modelled from the spec: the precondition C10 claims is checked,
namely that the plaintext is exactly 26 characters drawn from the
base-32 alphabet used by `base32.StdEncoding` (A-Z and 2-7). -/
def specLengthCharsetPrecondition (t : String) : Bool :=
  (t.length == 26) &&
    t.data.all fun c => "ABCDEFGHIJKLMNOPQRSTUVWXYZ234567".data.contains c

/-- C10 counterexample: a plaintext of 26 characters outside the base-32
alphabet fails the claimed length/charset precondition, yet
`ValidateTokenPlaintext` accepts it (only emptiness and byte length are
checked), and `authenticate` then proceeds to the store lookup: the
outcome depends on the lookup result, so a lookup does occur and the
request is not rejected as malformed beforehand. -/
theorem charset_precondition_not_enforced :
    specLengthCharsetPrecondition "!!!!!!!!!!!!!!!!!!!!!!!!!!" = false ∧
    ValidateTokenPlaintext "!!!!!!!!!!!!!!!!!!!!!!!!!!" = true ∧
    authenticateStep ⟨"Bearer !!!!!!!!!!!!!!!!!!!!!!!!!!", "", "", ""⟩
        (.ok ⟨9, true, false⟩) = .ok ⟨9, true, false⟩ ∧
    authenticateStep ⟨"Bearer !!!!!!!!!!!!!!!!!!!!!!!!!!", "", "", ""⟩
        (.error .recordNotFound) = .error .invalidAuthenticationToken := by
  refine ⟨by decide, by decide, rfl, rfl⟩

/-- C10 amended: the precondition actually enforced before any lookup is
the shape check of `ValidateTokenPlaintext` (non-empty, exactly 26
bytes): every presented plaintext failing it is rejected with the
invalid-token response, and the outcome is independent of the store
lookup result, so no lookup is observable for such input. -/
theorem malformed_token_rejected_before_lookup (pt : String)
    (h : ValidateTokenPlaintext pt = false)
    (lr lr2 : Except AuthErr User) :
    authenticateStep ⟨"Bearer " ++ pt, "", "", ""⟩ lr =
        .error .invalidAuthenticationToken ∧
    authenticateStep ⟨"Bearer " ++ pt, "", "", ""⟩ lr =
      authenticateStep ⟨"Bearer " ++ pt, "", "", ""⟩ lr2 := by
  have hne : (("Bearer " ++ pt) == "") = false := by
    rw [beq_eq_false_iff_ne]
    intro hcontra
    have hdata : ("Bearer " ++ pt).data = ([] : List Char) := by
      rw [hcontra]
    rw [String.data_append] at hdata
    simp at hdata
  have htake : ("Bearer " ++ pt).take 7 = "Bearer " := by
    apply String.ext
    rw [String.data_take, String.data_append]
    exact List.take_left' (by rfl)
  have hdrop : ("Bearer " ++ pt).drop 7 = pt := by
    apply String.ext
    rw [String.data_drop, String.data_append]
    exact List.drop_left' (by rfl)
  unfold authenticateStep
  rw [hne, htake, hdrop]
  simp [h]

/-- Closed witness for the amended C10 theorem at a 3-byte plaintext. -/
theorem malformed_token_rejected_before_lookup_witness :
    authenticateStep ⟨"Bearer " ++ "abc", "", "", ""⟩
        (.ok ⟨9, true, false⟩) = .error .invalidAuthenticationToken ∧
    authenticateStep ⟨"Bearer " ++ "abc", "", "", ""⟩
        (.ok ⟨9, true, false⟩) =
      authenticateStep ⟨"Bearer " ++ "abc", "", "", ""⟩
        (.error .recordNotFound) :=
  malformed_token_rejected_before_lookup "abc" (by decide)
    (.ok ⟨9, true, false⟩) (.error .recordNotFound)

/-- Reading back the key just written. -/
theorem ClientsMap.lookup_insert (k : String) (v : ClientEntry) :
    ∀ m : ClientsMap, (ClientsMap.insert m k v).lookup k = some v := by
  intro m
  induction m with
  | nil => simp [ClientsMap.insert, ClientsMap.lookup]
  | cons e rest ih =>
      by_cases he : (e.1 == k) = true
      · simp [ClientsMap.insert, ClientsMap.lookup, he]
      · simp only [ClientsMap.insert, ClientsMap.lookup, he,
          Bool.false_eq_true, if_false, if_neg]
        exact ih

/-- C8: for a request presenting an API key that resolves to an enabled
trusted client with no bucket yet, the admission decision is taken by a
fresh bucket stored under that API key and parameterized by the client
row (its own configured rate and burst), and the whole step is
independent of the global default limiter parameters. -/
theorem trusted_client_uses_own_bucket (cfg : LimiterConfig)
    (sha : String → String) (trusted : List TrustedClientRow)
    (clients : ClientsMap) (now : ℚ) (req : Request)
    (c : TrustedClientRow)
    (hen : cfg.enabled = true)
    (hkey : (req.apiKeyHeader == "") = false)
    (hhit : TrustedClientModel.GetByAPIKey sha trusted req.apiKeyHeader =
      .ok c)
    (hcen : c.enabled = true)
    (hmiss : clients.lookup req.apiKeyHeader = none) :
    (rateLimitStep cfg sha trusted clients now req).1 =
      (if (rateNewLimiter c.rateLimitRPS c.rateLimitBurst).allow.1 then
        .ok () else .error .rateLimitExceeded) ∧
    (rateLimitStep cfg sha trusted clients now req).2.lookup
        req.apiKeyHeader =
      some ⟨(rateNewLimiter c.rateLimitRPS c.rateLimitBurst).allow.2, now⟩ ∧
    (∀ (rps2 : ℚ) (burst2 : ℕ),
      rateLimitStep { cfg with rps := rps2, burst := burst2 } sha trusted
          clients now req =
        rateLimitStep cfg sha trusted clients now req) := by
  have hstep : rateLimitStep cfg sha trusted clients now req =
      (if !(rateNewLimiter c.rateLimitRPS c.rateLimitBurst).allow.1 then
        (.error .rateLimitExceeded,
          clients.insert req.apiKeyHeader
            ⟨(rateNewLimiter c.rateLimitRPS c.rateLimitBurst).allow.2, now⟩)
      else
        (.ok (),
          clients.insert req.apiKeyHeader
            ⟨(rateNewLimiter c.rateLimitRPS c.rateLimitBurst).allow.2, now⟩)) := by
    unfold rateLimitStep
    simp only [hen, hkey, hhit, hcen, hmiss, Bool.not_true, Bool.not_false,
      if_true, if_false]
    simp
  refine ⟨?_, ?_, ?_⟩
  · rw [hstep]
    by_cases hres : (rateNewLimiter c.rateLimitRPS c.rateLimitBurst).allow.1 = true <;>
      simp [hres]
  · rw [hstep]
    by_cases hres : (rateNewLimiter c.rateLimitRPS c.rateLimitBurst).allow.1 = true <;>
      simp [hres, ClientsMap.lookup_insert]
  · intro rps2 burst2
    have hstep2 : rateLimitStep { cfg with rps := rps2, burst := burst2 }
        sha trusted clients now req =
        (if !(rateNewLimiter c.rateLimitRPS c.rateLimitBurst).allow.1 then
          (.error .rateLimitExceeded,
            clients.insert req.apiKeyHeader
              ⟨(rateNewLimiter c.rateLimitRPS c.rateLimitBurst).allow.2, now⟩)
        else
          (.ok (),
            clients.insert req.apiKeyHeader
              ⟨(rateNewLimiter c.rateLimitRPS c.rateLimitBurst).allow.2, now⟩)) := by
      unfold rateLimitStep
      simp only [hen, hkey, hhit, hcen, hmiss, Bool.not_true, Bool.not_false,
        if_true, if_false]
      simp
    rw [hstep, hstep2]

/-- Closed witness for the C8 theorem: a trusted client with rate 7 and
burst 9 is admitted from a bucket holding its own parameters, not the
global (2, 4) defaults. -/
theorem trusted_client_uses_own_bucket_witness :
    (rateLimitStep ⟨true, 2, 4, 180⟩ (fun s => s)
        [⟨5, "KEY123", 7, 9, true⟩] [] 0
        ⟨"", "KEY123", "", "10.0.0.1"⟩).1 = .ok () ∧
    (rateLimitStep ⟨true, 2, 4, 180⟩ (fun s => s)
        [⟨5, "KEY123", 7, 9, true⟩] [] 0
        ⟨"", "KEY123", "", "10.0.0.1"⟩).2.lookup "KEY123" =
      some ⟨(rateNewLimiter 7 9).allow.2, 0⟩ := by
  have h := trusted_client_uses_own_bucket ⟨true, 2, 4, 180⟩ (fun s => s)
    [⟨5, "KEY123", 7, 9, true⟩] [] 0 ⟨"", "KEY123", "", "10.0.0.1"⟩
    ⟨5, "KEY123", 7, 9, true⟩ rfl (by decide) rfl rfl rfl
  refine ⟨?_, ?_⟩
  · rw [h.1]; rfl
  · rw [h.2.1]

/-- Normal form of the non-trusted branch of `rateLimit`: when the
limiter is enabled and no enabled trusted client matches the presented
key, the decision is taken by the bucket at the caller-address key
(`entry`, either the stored one or a fresh default-parameterized one)
and the registry is updated at that key. -/
theorem rateLimitStep_ip (cfg : LimiterConfig) (sha : String → String)
    (trusted : List TrustedClientRow) (clients : ClientsMap) (now : ℚ)
    (req : Request) (entry : ClientEntry)
    (hen : cfg.enabled = true)
    (hmiss : req.apiKeyHeader = "" ∨
      ∀ d, TrustedClientModel.GetByAPIKey sha trusted req.apiKeyHeader =
        .ok d → d.enabled = false)
    (hentry : (match clients.lookup (ipKeyOf req) with
        | some e => e
        | none => ⟨rateNewLimiter cfg.rps cfg.burst, 0⟩) = entry) :
    rateLimitStep cfg sha trusted clients now req =
      (if !entry.limiter.allow.1 then
        (.error .rateLimitExceeded,
          clients.insert (ipKeyOf req) ⟨entry.limiter.allow.2, now⟩)
      else
        (.ok (),
          clients.insert (ipKeyOf req) ⟨entry.limiter.allow.2, now⟩)) := by
  rcases hmiss with hk | hforall
  · unfold rateLimitStep
    simp only [hen, hk, Bool.not_true, Bool.not_false, if_true, if_false]
    simp [hentry]
  · rcases hgb : TrustedClientModel.GetByAPIKey sha trusted
        req.apiKeyHeader with e | d
    · unfold rateLimitStep
      simp only [hen, hgb, Bool.not_true, Bool.not_false, if_true, if_false]
      by_cases hk2 : (req.apiKeyHeader == "") = true <;>
        simp [hk2, hentry]
    · have hde := hforall d hgb
      unfold rateLimitStep
      simp only [hen, hgb, hde, Bool.not_true, Bool.not_false, if_true,
        if_false]
      by_cases hk2 : (req.apiKeyHeader == "") = true <;>
        simp [hk2, hentry]

/-- C9: for a request that presents no usable trusted-client credential,
with the limiter enabled, the admission key is the network address
preferring the `X-Real-IP` proxy header and falling back to
`RemoteAddr`: the registry is updated at exactly that key and the
admission decision depends only on the registry entry at that key. -/
theorem anonymous_traffic_keyed_by_network_address (cfg : LimiterConfig)
    (sha : String → String) (trusted : List TrustedClientRow)
    (clients clientsB : ClientsMap) (now : ℚ) (req : Request)
    (hen : cfg.enabled = true)
    (hmiss : req.apiKeyHeader = "" ∨
      ∀ d, TrustedClientModel.GetByAPIKey sha trusted req.apiKeyHeader =
        .ok d → d.enabled = false) :
    ipKeyOf req =
      (if req.realIPHeader ≠ "" then req.realIPHeader
        else req.remoteAddr) ∧
    (rateLimitStep cfg sha trusted clients now req).2.lookup
        (ipKeyOf req) ≠ none ∧
    (clientsB.lookup (ipKeyOf req) = clients.lookup (ipKeyOf req) →
      (rateLimitStep cfg sha trusted clientsB now req).1 =
        (rateLimitStep cfg sha trusted clients now req).1) := by
  have h1 := rateLimitStep_ip cfg sha trusted clients now req _ hen hmiss rfl
  refine ⟨?_, ?_, ?_⟩
  · unfold ipKeyOf
    by_cases h : req.realIPHeader = "" <;> simp [h]
  · rw [h1]
    by_cases hres : (match clients.lookup (ipKeyOf req) with
        | some e => e
        | none => ⟨rateNewLimiter cfg.rps cfg.burst, 0⟩).limiter.allow.1 = true <;>
      simp [hres, ClientsMap.lookup_insert]
  · intro heq
    have h2 := rateLimitStep_ip cfg sha trusted clientsB now req _ hen hmiss rfl
    rw [h1, h2, heq]
    simp [apply_ite Prod.fst]

/-- Closed witness for the C9 theorem: an anonymous request with an
`X-Real-IP` header is admitted from the bucket keyed by that header
value. -/
theorem anonymous_traffic_keyed_by_network_address_witness :
    ipKeyOf ⟨"", "", "203.0.113.9", "10.0.0.1"⟩ =
      (if ("203.0.113.9" : String) ≠ "" then "203.0.113.9"
        else "10.0.0.1") ∧
    (rateLimitStep ⟨true, 2, 4, 180⟩ (fun s => s) [] [] 0
        ⟨"", "", "203.0.113.9", "10.0.0.1"⟩).2.lookup
      (ipKeyOf ⟨"", "", "203.0.113.9", "10.0.0.1"⟩) ≠ none := by
  have h := anonymous_traffic_keyed_by_network_address ⟨true, 2, 4, 180⟩
    (fun s => s) [] [] [] 0 ⟨"", "", "203.0.113.9", "10.0.0.1"⟩ rfl
    (Or.inl rfl)
  exact ⟨h.1, h.2.1⟩

/-- C7 counterexample: a request whose bearer credential is malformed
and whose address bucket is empty is answered with the rate-limit
response, not the invalid-token response: the code consults the rate
limiter before extracting or authenticating the credential, contrary to
the claimed authenticate-then-admit order. -/
theorem rate_limit_runs_before_authentication :
    (processRequest ⟨true, 2, 4, 180⟩ (fun s => s) []
        [("10.0.0.1", ⟨⟨2, 4, 0⟩, 0⟩)] 0
        ⟨"Bearer x", "", "", "10.0.0.1"⟩ (.ok ⟨9, true, false⟩)
        "movies:read" none (.ok [])).1 = .rateLimitExceeded ∧
    authenticateStep ⟨"Bearer x", "", "", "10.0.0.1"⟩
        (.ok ⟨9, true, false⟩) = .error .invalidAuthenticationToken ∧
    Outcome.rateLimitExceeded ≠ Outcome.invalidAuthenticationToken := by
  refine ⟨rfl, rfl, by simp⟩

/-- C7 amended: the per-request decision sequence of the code is
rate-limit admission first (keyed from the request headers and address
directly), then credential extraction with anonymous fallback and
authentication, then the permission check; each failing step replies
immediately and later steps do not run. -/
theorem decision_sequence_of_code (cfg : LimiterConfig)
    (sha : String → String) (trusted : List TrustedClientRow)
    (clients m2 : ClientsMap) (now : ℚ) (req : Request)
    (lr : Except AuthErr User) (code : String)
    (cached : Option PermissionCacheEntry)
    (fetch : Except StoreErr Permissions) (o : Outcome) (u : User) :
    (rateLimitStep cfg sha trusted clients now req = (.error o, m2) →
      processRequest cfg sha trusted clients now req lr code cached fetch =
        (o, m2, cached)) ∧
    (rateLimitStep cfg sha trusted clients now req = (.ok (), m2) →
      authenticateStep req lr = .error o →
      processRequest cfg sha trusted clients now req lr code cached fetch =
        (o, m2, cached)) ∧
    (rateLimitStep cfg sha trusted clients now req = (.ok (), m2) →
      authenticateStep req lr = .ok u →
      processRequest cfg sha trusted clients now req lr code cached fetch =
        ((requirePermissionOutcome code now cached fetch u).1, m2,
          (requirePermissionOutcome code now cached fetch u).2)) := by
  refine ⟨?_, ?_, ?_⟩
  · intro hrl
    unfold processRequest
    rw [hrl]
  · intro hrl hauth
    unfold processRequest
    rw [hrl, hauth]
  · intro hrl hauth
    unfold processRequest
    rw [hrl, hauth]

/-- Closed witness for the amended C7 theorem: a denied admission on an
unauthenticated request is returned as the final outcome with the
permission stage untouched. -/
theorem decision_sequence_of_code_witness :
    processRequest ⟨true, 2, 4, 180⟩ (fun s => s) []
        [("10.0.0.1", ⟨⟨2, 4, 0⟩, 0⟩)] 0 ⟨"", "", "", "10.0.0.1"⟩
        (.ok ⟨9, true, false⟩) "movies:read" none (.ok []) =
      (.rateLimitExceeded, [("10.0.0.1", ⟨⟨2, 4, 0⟩, 0⟩)], none) :=
  (decision_sequence_of_code ⟨true, 2, 4, 180⟩ (fun s => s) []
      [("10.0.0.1", ⟨⟨2, 4, 0⟩, 0⟩)] [("10.0.0.1", ⟨⟨2, 4, 0⟩, 0⟩)] 0
      ⟨"", "", "", "10.0.0.1"⟩ (.ok ⟨9, true, false⟩) "movies:read" none
      (.ok []) .rateLimitExceeded ⟨9, true, false⟩).1 (by rfl)

/-- The middleware chain that `routes()` mounts on the resource-guarded
movie write operations (PATCH and DELETE on the movie-by-id route):
`requirePermission("movies:write")` wraps
`requireResourcePermission("movie", "movies:write", readIDParam)`, so
the resource-scoped check runs only when the outer global check has
already passed the request on.  Store calls are instantiated with their
results on `db`, and `rid` is the parsed resource id. -/
def movieWriteRouteOutcome (now : ℚ)
    (cached : Option PermissionCacheEntry) (user : User)
    (db : PermissionDB) (rid : Int) :
    Outcome × Option PermissionCacheEntry :=
  let outer := requirePermissionOutcome "movies:write" now cached
      (.ok (PermissionsModel.GetAllForUser db user.id)) user
  if outer.1 = .allow then
    (requireResourcePermissionOutcome "movies:write" (.ok rid)
        (.ok (ResourcePermissionModel.HasPermission db user.id "movie" rid
          "movies:write"))
        (.ok (PermissionsModel.GetAllForUser db user.id)),
      outer.2)
  else outer

/-- The store of the C1 failing input: principal 7 holds exactly the
resource-scoped row (7, movie, 42, movies:write) and no global
permission. -/
def resourceOnlyDB : PermissionDB :=
  ⟨[⟨7, "movie", 42, "movies:write"⟩], [], [], [], []⟩

/-- C1 (divergence witness): an activated, authenticated principal
holding the exact-match resource-scoped row but not the global code is
answered not-permitted by the mounted route chain, because `routes()`
nests `requireResourcePermission` inside the
`requirePermission("movies:write")` group and the outer global check
replies before the resource check can run.  The
`requireResourcePermission` middleware itself (third conjunct) does
implement the claimed resource-OR-global policy and would allow this
request, so the alternative authorization path is the evident intent
and the route nesting defeats it. -/
theorem resource_row_alone_is_denied_by_route_chain :
    hasResourceRow resourceOnlyDB 7 "movie" 42 "movies:write" ∧
    (movieWriteRouteOutcome 0 none ⟨7, true, false⟩ resourceOnlyDB 42).1 =
      .notPermitted ∧
    requireResourcePermissionOutcome "movies:write" (.ok 42)
        (.ok (ResourcePermissionModel.HasPermission resourceOnlyDB 7
          "movie" 42 "movies:write"))
        (.ok (PermissionsModel.GetAllForUser resourceOnlyDB 7)) =
      .allow := by
  refine ⟨by decide, rfl, rfl⟩

end Greenlight
